import Mathlib

/-!
# Verification of the tower-defense combat core

Shallow embedding of the wave / targeting / projectile / survival logic of
the repository (files `src/enemies/ecs.rs`, `src/enemies/config.rs`,
`src/tower_building/attack.rs`, `src/tower_building/config.rs`).

Modelling conventions:
* `f32` values are embedded as exact rationals (`ℚ`).  Every floating-point
  comparison the code performs is a threshold or ordering comparison of
  distances; real distances `dist a b < c` (with `c > 0`) are embedded as
  squared-distance comparisons `dist2 a b < c * c`, which is equivalent for
  the true reals because squaring is strictly monotone on nonnegative values.
  Where the code itself already compares *squared* distances
  (`distance_squared`), the constant is NOT squared, exactly as in the code.
* `u8` / `u16` counters are embedded as `Nat`; increments that can overflow in
  the machine type carry an explicit `% 256` (for `u8 wave_count`); `as u16`
  casts of nonnegative floats saturate at 65535, and `saturating_sub` is `Nat`
  truncated subtraction.
* `Vec3::normalize` (an irrational operation) is abstracted as an oracle
  function `dirTo : Vec3 → Vec3` carried by the per-tick environment: none of
  the verified claims depends on the numeric value of the unit vector.
* Bevy `Timer` is embedded with its documented semantics (pause, reset,
  `just_finished`, `TimerMode::Once` / `TimerMode::Repeating`).
-/

/-- Exact 2-D point (embedding of bevy `Vec2` with rational coordinates). -/
structure V2 where
  x : ℚ
  y : ℚ
deriving DecidableEq, Repr

/-- Exact 3-D point (embedding of bevy `Vec3` with rational coordinates). -/
structure V3 where
  x : ℚ
  y : ℚ
  z : ℚ
deriving DecidableEq, Repr

/-- `Vec3::truncate`: drop the z coordinate. -/
def V3.truncate (v : V3) : V2 := ⟨v.x, v.y⟩

def V3.sub (a b : V3) : V3 := ⟨a.x - b.x, a.y - b.y, a.z - b.z⟩

def V3.add (a b : V3) : V3 := ⟨a.x + b.x, a.y + b.y, a.z + b.z⟩

def V3.scale (k : ℚ) (v : V3) : V3 := ⟨k * v.x, k * v.y, k * v.z⟩

/-- Squared euclidean distance in the plane (`Vec2::distance` squared). -/
def dist2 (a b : V2) : ℚ :=
  (a.x - b.x) * (a.x - b.x) + (a.y - b.y) * (a.y - b.y)

/-- Squared euclidean distance in space (`Vec3::distance` squared). -/
def dist3 (a b : V3) : ℚ :=
  (a.x - b.x) * (a.x - b.x) + (a.y - b.y) * (a.y - b.y) + (a.z - b.z) * (a.z - b.z)

/-! ## Bevy timers -/

inductive TimerMode where
  | once
  | repeating
deriving DecidableEq, Repr

/-- Embedding of `bevy::time::Timer`: duration, accumulated time, mode,
paused flag, finished flag and the number of times the timer finished during
the most recent `tick` (`just_finished()` is `timesFinishedThisTick > 0`). -/
structure GameTimer where
  duration : ℚ
  elapsed : ℚ
  mode : TimerMode
  paused : Bool
  finished : Bool
  timesFinishedThisTick : Nat
deriving DecidableEq, Repr

namespace GameTimer

/-- `Timer::from_seconds(d, TimerMode::Once)`. -/
def once (d : ℚ) : GameTimer := ⟨d, 0, .once, false, false, 0⟩

/-- `Timer::from_seconds(d, TimerMode::Repeating)`. -/
def repeating (d : ℚ) : GameTimer := ⟨d, 0, .repeating, false, false, 0⟩

/-- `Timer::just_finished()`. -/
def justFinished (t : GameTimer) : Bool := t.timesFinishedThisTick != 0

/-- `Timer::pause()`. -/
def pause (t : GameTimer) : GameTimer := { t with paused := true }

/-- `Timer::unpause()`. -/
def unpause (t : GameTimer) : GameTimer := { t with paused := false }

/-- `Timer::reset()`: elapsed time, finished flag and the just-finished
count are cleared. -/
def reset (t : GameTimer) : GameTimer :=
  { t with elapsed := 0, finished := false, timesFinishedThisTick := 0 }

/-- `Timer::tick(delta)`.  A paused timer ignores the delta; a finished
`Once` timer stays finished with a zero just-finished count; otherwise time
accumulates, a `Once` timer clamps at its duration and reports one finish,
and a `Repeating` timer wraps around reporting how many intervals elapsed. -/
def tick (t : GameTimer) (dt : ℚ) : GameTimer :=
  if t.paused then { t with timesFinishedThisTick := 0 }
  else if t.mode = .once ∧ t.finished then { t with timesFinishedThisTick := 0 }
  else
    let e := t.elapsed + dt
    if t.duration ≤ e then
      match t.mode with
      | .once => { t with elapsed := t.duration, finished := true, timesFinishedThisTick := 1 }
      | .repeating =>
          let n := (⌊e / t.duration⌋).toNat
          { t with elapsed := e - t.duration * n, finished := true, timesFinishedThisTick := n }
    else { t with elapsed := e, finished := false, timesFinishedThisTick := 0 }

end GameTimer

/-! ## Configuration constants (`enemies/config.rs`, `tower_building/config.rs`) -/

def MAX_ENEMIES_PER_WAVE : Nat := 25
def SPAWN_Y_LOCATION : ℚ := 70
def SPAWN_X_LOCATION : ℚ := 610
def TIME_BETWEEN_WAVES : ℚ := 15
def TIME_BETWEEN_SPAWNS : ℚ := 3 / 2
def INITIAL_ENEMY_LIFE : Nat := 60
def SCALAR : ℚ := 4 / 5
def TOWER_ATTACK_RANGE : ℚ := 250
def DESPAWN_SHOT_RANGE : ℚ := 800
def SHOT_HURT_DISTANCE : ℚ := 700
def SHOT_SPEED : ℚ := 700

/-- `GameState` as used by `enemies/ecs.rs` (`Building`, `Attacking`,
`GameOver`); only the variants the combat core manipulates are embedded. -/
inductive GameState where
  | Building
  | Attacking
  | GameOver
deriving DecidableEq, Repr

/-- `BREAK_POINTS` from `enemies/ecs.rs`: the six waypoints of the path. -/
def BREAK_POINTS : List V2 :=
  [⟨260, SPAWN_Y_LOCATION⟩, ⟨260, -205⟩, ⟨-230, -205⟩,
   ⟨-230, SPAWN_Y_LOCATION⟩, ⟨-455, SPAWN_Y_LOCATION⟩, ⟨-455, -375⟩]

/-! ## Wave state (`WaveControl` resource, `enemies/config.rs` and `enemies/ecs.rs`) -/

/-- The `WaveControl` resource.  The texture/animation vectors are embedded by
their length (`textures`): the only thing the wave logic reads from them is
`textures.len()` and the archetype selected by `wave_count`, which carries no
simulation data.  `first_wave_spawned` is the bootstrap flag used by
`wave_control` in `enemies/ecs.rs`. -/
structure WaveControl where
  wave_count : Nat
  time_between_spawns : GameTimer
  textures : Nat
  spawned_count_in_wave : Nat
  time_between_waves : GameTimer
  first_wave_spawned : Bool
deriving DecidableEq, Repr

/-- The initial `WaveControl` inserted by `load_enemy_sprites`
(`enemies/config.rs`): four loaded archetypes, zero counters, a repeating
1.5 s spawn timer and a one-shot 15 s wave timer. -/
def initial_wave_control : WaveControl :=
  { wave_count := 0
    time_between_spawns := GameTimer.repeating TIME_BETWEEN_SPAWNS
    textures := 4
    spawned_count_in_wave := 0
    time_between_waves := GameTimer.once TIME_BETWEEN_WAVES
    first_wave_spawned := false }

/-- Enemy life at wave `w` (`spawn_wave`, `enemies/ecs.rs` line 47):
`(INITIAL_ENEMY_LIFE as f32 * (1.2 + SCALAR).powf(w)).round() as u16`.
The `as u16` cast of a nonnegative float saturates at 65535. -/
def enemy_life (w : Nat) : Nat :=
  min ((round ((INITIAL_ENEMY_LIFE : ℚ) * ((6 / 5 : ℚ) + SCALAR) ^ w)).toNat) 65535

/-- Enemy speed at wave `w` (`spawn_wave`, `enemies/ecs.rs` line 50):
`(75.0 * 1.05f32.powf(w)).min(300.0)`. -/
def enemy_speed (w : Nat) : ℚ :=
  min ((75 : ℚ) * (21 / 20 : ℚ) ^ w) 300

/-- The observable data of an enemy entity created by `spawn_wave`:
translation, `Enemy { life, speed }` and `BreakPointLvl(0)`. -/
structure SpawnedEnemy where
  pos : V3
  life : Nat
  speed : ℚ
  lvl : Nat
deriving DecidableEq, Repr

/-- `spawn_wave` (`enemies/ecs.rs` lines 35-75).  Returns the updated
`WaveControl` and the enemy spawned this tick, if any.  The function returns
immediately (before ticking the spawn timer) when `wave_count` equals the
number of loaded archetypes. -/
def spawn_wave (s : WaveControl) (dt : ℚ) : WaveControl × Option SpawnedEnemy :=
  if s.wave_count = s.textures then (s, none)
  else
    let ts := s.time_between_spawns.tick dt
    if s.spawned_count_in_wave < MAX_ENEMIES_PER_WAVE ∧ ts.justFinished = true then
      ({ s with time_between_spawns := ts
                spawned_count_in_wave := s.spawned_count_in_wave + 1 },
       some { pos := ⟨SPAWN_X_LOCATION, SPAWN_Y_LOCATION, 1⟩
              life := enemy_life s.wave_count
              speed := enemy_speed s.wave_count
              lvl := 0 })
    else ({ s with time_between_spawns := ts }, none)

/-- `wave_control` (`enemies/ecs.rs` lines 186-246).  `enemiesAlive` is the
result of the `enemies` query (`iter().next().is_some()`).  Returns the
updated `WaveControl` and the `NextState` value written this tick, if any
(later `set` calls overwrite earlier ones, as in bevy).  The fire-and-forget
Solana task spawned on wave increment has no effect on the simulation state
and is not embedded. -/
def wave_control (s : WaveControl) (dt : ℚ) (enemiesAlive : Bool) :
    WaveControl × Option GameState :=
  let t1 := s.time_between_waves.tick dt
  let bootstrap := !s.first_wave_spawned && t1.justFinished
  let t2 := if bootstrap then (t1.pause).reset else t1
  let first2 := if bootstrap then true else s.first_wave_spawned
  let ph1 : Option GameState := if bootstrap then some GameState.Attacking else none
  if s.spawned_count_in_wave = MAX_ENEMIES_PER_WAVE ∧ enemiesAlive = false then
    let pausedBranch := t2.paused
    let t3 := if pausedBranch then (t2.unpause).reset else t2
    let ph2 : Option GameState := if pausedBranch then some GameState.Building else ph1
    if t3.justFinished = true then
      ({ s with spawned_count_in_wave := 0
                wave_count := (s.wave_count + 1) % 256
                time_between_waves := (t3.pause).reset
                first_wave_spawned := first2 },
       some GameState.Attacking)
    else
      ({ s with time_between_waves := t3, first_wave_spawned := first2 }, ph2)
  else
    ({ s with time_between_waves := t2, first_wave_spawned := first2 }, ph1)

/-- `reset_wave_control_on_game_over` (`enemies/ecs.rs` lines 168-175). -/
def reset_wave_control_on_game_over (s : WaveControl) : WaveControl :=
  { s with wave_count := 0
           spawned_count_in_wave := 0
           time_between_waves := ((s.time_between_waves).unpause).reset
           time_between_spawns := (s.time_between_spawns).reset
           first_wave_spawned := false }

/-- One scheduler activation of a wave-state-mutating system: the three
writers of `WaveControl` in the repository. -/
inductive WaveOp where
  | spawn (dt : ℚ)
  | control (dt : ℚ) (enemiesAlive : Bool)
  | resetGameOver
deriving DecidableEq, Repr

def applyWaveOp (s : WaveControl) : WaveOp → WaveControl
  | .spawn dt => (spawn_wave s dt).1
  | .control dt ea => (wave_control s dt ea).1
  | .resetGameOver => reset_wave_control_on_game_over s

/-- State after running a sequence of wave-system activations from the
initial resource. -/
def runWaveOps (ops : List WaveOp) : WaveControl :=
  ops.foldl applyWaveOp initial_wave_control

/-- Reachable `WaveControl` states: the initial resource and anything a
wave-system activation produces from a reachable state. -/
inductive ReachableWave : WaveControl → Prop where
  | init : ReachableWave initial_wave_control
  | step {s : WaveControl} (op : WaveOp) :
      ReachableWave s → ReachableWave (applyWaveOp s op)

/-- Number of enemies spawned while running `ops` from `s` (counts the
`some` results of `spawn_wave`; `wave_control` and the reset spawn none). -/
def countSpawns (s : WaveControl) : List WaveOp → Nat
  | [] => 0
  | op :: rest =>
      let here := match op with
        | .spawn dt => if (spawn_wave s dt).2.isSome then 1 else 0
        | _ => 0
      here + countSpawns (applyWaveOp s op) rest

/-! ## Targeting (`spawn_shots`, `tower_building/attack.rs` lines 32-112) -/

/-- The per-enemy data read by the targeting and breach systems: the entity
id, the `Transform` translation and the `BreakPointLvl` component. -/
structure EnemyRef where
  pos : V3
  lvl : Nat
  ent : Nat
deriving DecidableEq, Repr

/-- The in-range filter of `spawn_shots` (lines 46-53):
`distance < TOWER_ATTACK_RANGE && distance > 0.0`, embedded on squared
distances (`Vec3::distance` of `translation`s, hence 3-D). -/
def enemies_in_range (tower : V3) (es : List EnemyRef) : List EnemyRef :=
  es.filter fun e =>
    decide (dist3 tower e.pos < TOWER_ATTACK_RANGE * TOWER_ATTACK_RANGE) &&
    decide (0 < dist3 tower e.pos)

/-- The highest `BreakPointLvl` among the given enemies (lines 56-61):
`iter().map(|(_, b, _)| b).max().unwrap_or(&BreakPointLvl(0))`. -/
def max_break_value (es : List EnemyRef) : Nat :=
  es.foldl (fun m e => max m e.lvl) 0

/-- The enemies sharing the highest `BreakPointLvl` (lines 64-68). -/
def closer_enemies_to_victory (tower : V3) (es : List EnemyRef) : List EnemyRef :=
  (enemies_in_range tower es).filter fun e =>
    e.lvl == max_break_value (enemies_in_range tower es)

/-- Distance from an enemy's current position to the waypoint indexed by its
`BreakPointLvl` (line 75), embedded squared.  `BreakPointLvl` values produced
by the game are always `0..5`; the Rust indexing panics outside that range,
embedded totally with `getD`. -/
def dist_to_break (e : EnemyRef) : ℚ :=
  dist2 (e.pos.truncate) (BREAK_POINTS.getD e.lvl ⟨0, 0⟩)

/-- The selection loop of `spawn_shots` (lines 71-82): scan the candidates in
order, keeping the first enemy whose distance-to-waypoint is strictly smaller
than the best seen so far.  The Rust loop starts from `f32::MAX`, which every
actual distance is below; the `Option` accumulator embeds that. -/
def select_loop : Option (EnemyRef × ℚ) → List EnemyRef → Option (EnemyRef × ℚ)
  | acc, [] => acc
  | acc, e :: t =>
      match acc with
      | none => select_loop (some (e, dist_to_break e)) t
      | some (b, db) =>
          if dist_to_break e < db then select_loop (some (e, dist_to_break e)) t
          else select_loop (some (b, db)) t

/-- The target chosen by one tower in `spawn_shots`: the enemy stored in
`closest_enemy` at the end of the loop. -/
def spawn_shots_target (tower : V3) (es : List EnemyRef) : Option EnemyRef :=
  (select_loop none (closer_enemies_to_victory tower es)).map Prod.fst

/-! ## Breach handling (`game_over`, `enemies/ecs.rs` lines 150-166) -/

/-- The y threshold of the terminal waypoint, `BREAK_POINTS[5].y`. -/
def FINAL_BREAK_Y : ℚ := (BREAK_POINTS.getD 5 ⟨0, 0⟩).y

/-- `game_over`: every enemy whose translation has `y <= BREAK_POINTS[5].y`
is despawned and `lifes` is `saturating_sub(1)`-ed once per such enemy; after
the loop, if `lifes == 0` the next state is set to `GameOver`.  Returns the
surviving enemies, the new `lifes` and the `NextState` write, if any. -/
def game_over (enemies : List EnemyRef) (lifes : Nat) :
    List EnemyRef × Nat × Option GameState :=
  let breached := enemies.filter fun e => decide (e.pos.y ≤ FINAL_BREAK_Y)
  let survivors := enemies.filter fun e => !decide (e.pos.y ≤ FINAL_BREAK_Y)
  let lifes2 := breached.foldl (fun l _ => l - 1) lifes
  (survivors, lifes2, if lifes2 = 0 then some GameState.GameOver else none)

/-- Modelled from the spec: the system-scheduling wiring (the bevy app
`run_if(in_state(...))` configuration) lives in module files that are not part
of the provided sources; per spec sections 4.7 and 8, once the phase is
`GameOver` (a terminal state) the spawning systems no longer run.  A gated
activation of `spawn_wave` therefore acts only in the `Attacking` phase. -/
def gated_spawn_wave (phase : GameState) (s : WaveControl) (dt : ℚ) :
    WaveControl × Option SpawnedEnemy :=
  if phase = GameState.Attacking then spawn_wave s dt else (s, none)

/-- Modelled from the spec: as for `gated_spawn_wave`, the targeting system
(`spawn_shots`) is gated by the phase state machine and does not run outside
the `Attacking` phase (spec sections 4.7 and 8). -/
def gated_spawn_shots_target (phase : GameState) (tower : V3) (es : List EnemyRef) :
    Option EnemyRef :=
  if phase = GameState.Attacking then spawn_shots_target tower es else none

/-! ## Projectiles (`tower_building/attack.rs` lines 114-203) -/

/-- Gold reward on a kill (`move_shots_to_enemies` lines 151-153):
`((enemy.life as f32 / 2.5) + ((wave_count as f32 + 1.0) * 2.0)).round() as u16`,
where `enemy.life` is the life remaining AFTER the saturating damage
subtraction.  The `as u16` cast saturates at 65535. -/
def gold_reward (lifeAfter waveCount : Nat) : Nat :=
  min ((round ((lifeAfter : ℚ) / (5 / 2) + ((waveCount : ℚ) + 1) * 2)).toNat) 65535

/-- The mutable data of a `Shot` entity together with its `Transform` and the
sprite-atlas frame index; `removed` records that a `despawn` command was
issued for it (a despawned entity is no longer iterated by any system). -/
structure ShotSt where
  damage : Nat
  target : Option (Nat × V3)
  pos : V3
  animation_timer : GameTimer
  atlasIndex : Nat
  removed : Bool
deriving DecidableEq, Repr

/-- Per-tick environment of the projectile systems: the frame delta, the
result of resolving the target entity in the `enemies` query (`none` when the
enemy was already despawned) together with its current life, and the
`normalize` oracle standing in for the irrational `Vec3::normalize`. -/
structure ShotEnv where
  dt : ℚ
  enemyPos : Option V3
  enemyLife : Nat
  dirTo : V3 → V3

/-- Observable effects of one projectile tick. -/
structure ShotEvents where
  damaged : Bool
  enemyKilled : Bool
  goldGained : Nat
deriving DecidableEq, Repr

def noShotEvents : ShotEvents := ⟨false, false, 0⟩

/-- `move_shots_to_enemies` (lines 114-165), for a single shot.  Runs only
when the target entity still resolves; flies toward the enemy, refreshes the
stored last-known position, and once the squared distance is within
`SHOT_HURT_DISTANCE` advances the impact animation; when the atlas frame
index reaches 7 the damage is applied (`saturating_sub`), the enemy is
despawned and gold awarded if its life reached 0, and the shot is despawned
unconditionally. -/
def move_shots_to_enemies (env : ShotEnv) (waveCount : Nat) (s : ShotSt) :
    ShotSt × ShotEvents :=
  if s.removed then (s, noShotEvents)
  else
    match s.target with
    | none => (s, noShotEvents)
    | some (targetEnt, _) =>
        match env.enemyPos with
        | none => (s, noShotEvents)
        | some epos =>
            let dir := env.dirTo (epos.sub s.pos)
            let pos1 := s.pos.add (dir.scale (SHOT_SPEED * env.dt))
            let s1 := { s with pos := pos1, target := some (targetEnt, epos) }
            if dist3 pos1 epos ≤ SHOT_HURT_DISTANCE then
              let t := s1.animation_timer.tick env.dt
              let idx := if t.justFinished then s1.atlasIndex + 1 else s1.atlasIndex
              let s2 := { s1 with animation_timer := t, atlasIndex := idx }
              if 7 ≤ idx then
                let lifeAfter := env.enemyLife - s.damage
                if lifeAfter = 0 then
                  ({ s2 with removed := true },
                   ⟨true, true, gold_reward lifeAfter waveCount⟩)
                else
                  ({ s2 with removed := true }, ⟨true, false, 0⟩)
              else (s2, noShotEvents)
            else (s1, noShotEvents)

/-- `despawn_shots_with_killed_target` (lines 167-203), for a single shot.
Runs only when the target entity no longer resolves: the atlas frame is reset
to 0, the shot keeps flying toward the last known position, and it is
despawned on arrival (squared distance within 50) or when its updated
translation leaves the 800-radius circle around the origin. -/
def despawn_shots_with_killed_target (env : ShotEnv) (s : ShotSt) : ShotSt :=
  if s.removed then s
  else
    match s.target with
    | none => s
    | some (_, lastPos) =>
        if env.enemyPos.isSome then s
        else
          let s0 := { s with atlasIndex := 0 }
          let dir := env.dirTo (lastPos.sub s.pos)
          let newPos := s.pos.add (dir.scale (SHOT_SPEED * env.dt))
          let arrived := dist3 newPos lastPos ≤ 50
          let pos1 := if arrived then lastPos else newPos
          let outOfRange :=
            DESPAWN_SHOT_RANGE * DESPAWN_SHOT_RANGE < dist2 pos1.truncate ⟨0, 0⟩
          { s0 with pos := pos1, removed := arrived || outOfRange }

/-- One tick of the projectile systems over a single shot: the two systems
act on disjoint shots (target alive vs. target gone), so their composition in
either order is the per-tick behavior. -/
def shot_tick (env : ShotEnv) (waveCount : Nat) (s : ShotSt) : ShotSt × ShotEvents :=
  let r := move_shots_to_enemies env waveCount s
  (despawn_shots_with_killed_target env r.1, r.2)

/-- Run a projectile through a sequence of ticks, counting the ticks on which
damage was applied. -/
def run_shot_ticks (waveCount : Nat) : List ShotEnv → ShotSt → ShotSt × Nat
  | [], s => (s, 0)
  | env :: rest, s =>
      let r := shot_tick env waveCount s
      let r2 := run_shot_ticks waveCount rest r.1
      (r2.1, (if r.2.damaged then 1 else 0) + r2.2)

/-! ## Auxiliary definitions used by the proofs and concrete witness states -/

/-- Proof-side recursive description of the selection loop: the first
element of the list attaining the minimal distance-to-waypoint. -/
def pick_first_min : List EnemyRef → Option EnemyRef
  | [] => none
  | e :: t =>
      match pick_first_min t with
      | none => some e
      | some c => if dist_to_break c < dist_to_break e then some c else some e

/-- Invariant of the wave state maintained by all three wave-system writers:
four loaded archetypes, wave counter at most 4, spawn counter at most the
quota, and a full quota only before the final wave. -/
def WaveInv (s : WaveControl) : Prop :=
  s.textures = 4 ∧ s.wave_count ≤ 4 ∧
    s.spawned_count_in_wave ≤ MAX_ENEMIES_PER_WAVE ∧
    (s.spawned_count_in_wave = MAX_ENEMIES_PER_WAVE → s.wave_count < 4)

/-- Concrete tower position used by witnesses. -/
def towerEx : V3 := ⟨-150, -150, 0⟩

def enemyEx1 : EnemyRef := ⟨⟨-200, -205, 0⟩, 2, 1⟩

def enemyEx2 : EnemyRef := ⟨⟨-100, -205, 0⟩, 2, 2⟩

def enemyEx3 : EnemyRef := ⟨⟨-150, -100, 0⟩, 1, 3⟩

def enemiesEx : List EnemyRef := [enemyEx1, enemyEx2, enemyEx3]

/-- Wave state with a full quota and a paused inter-wave cooldown. -/
def wcPausedEx : WaveControl :=
  { initial_wave_control with
      spawned_count_in_wave := 25
      time_between_waves := (GameTimer.once 15).pause }

/-- Wave state with a full quota and a cooldown one second from finishing. -/
def wcRunningEx : WaveControl :=
  { initial_wave_control with
      spawned_count_in_wave := 25
      first_wave_spawned := true
      time_between_waves := { GameTimer.once 15 with elapsed := 14 } }

/-- Wave state after the final wave: `wave_count` equals the number of
loaded archetypes. -/
def wcDoneEx : WaveControl := { initial_wave_control with wave_count := 4 }

/-- State reached from the initial resource by one `wave_control` activation
with a 15 s delta: the bootstrap fires, pausing and resetting the cooldown. -/
def wcBootEx : WaveControl :=
  ⟨0, GameTimer.repeating (3 / 2), 4, 0, ⟨15, 0, .once, true, false, 0⟩, true⟩

/-- State after `k` subsequent 1.5 s `spawn_wave` activations (`1 ≤ k ≤ 25`). -/
def wcSpawnEx (k : Nat) : WaveControl :=
  ⟨0, ⟨3 / 2, 0, .repeating, false, true, 1⟩, 4, k, ⟨15, 0, .once, true, false, 0⟩, true⟩

/-- State after the wave-completion activation that unpauses the cooldown. -/
def wcUnpausedEx : WaveControl :=
  ⟨0, ⟨3 / 2, 0, .repeating, false, true, 1⟩, 4, 25, ⟨15, 0, .once, false, false, 0⟩, true⟩

/-- State after the cooldown elapses: the first wave is complete and
`wave_count = 1`. -/
def wcAfterWaveEx : WaveControl :=
  ⟨1, ⟨3 / 2, 0, .repeating, false, true, 1⟩, 4, 0, ⟨15, 0, .once, true, false, 0⟩, true⟩

/-- Projectile tick environment with a live target at the origin. -/
def shotEnvEx : ShotEnv := ⟨0, some ⟨0, 0, 0⟩, 5, fun _ => ⟨0, 0, 0⟩⟩

/-- Projectile one frame away from impact on `shotEnvEx`'s target. -/
def shotEx : ShotSt :=
  ⟨10, some (0, ⟨0, 0, 0⟩), ⟨0, 0, 0⟩, GameTimer.repeating (1 / 20), 7, false⟩

/-- Projectile tick environment whose target entity no longer resolves. -/
def lostEnvEx : ShotEnv := ⟨2, none, 0, fun _ => ⟨1, 0, 0⟩⟩

/-- Projectile chasing the last known position `(900, 0, 0)`. -/
def shotLostEx : ShotSt :=
  ⟨10, some (0, ⟨900, 0, 0⟩), ⟨0, 0, 0⟩, GameTimer.repeating (1 / 20), 3, false⟩

/-- Enemy standing past the terminal waypoint's y threshold. -/
def breachEx : EnemyRef := ⟨⟨-455, -380, 1⟩, 5, 7⟩

/-! ## Timer lemmas -/

theorem GameTimer.tick_paused (t : GameTimer) (dt : ℚ) : (t.tick dt).paused = t.paused := by
  unfold GameTimer.tick
  split
  · rfl
  · split
    · rfl
    · dsimp only
      split
      · split <;> rfl
      · rfl

theorem GameTimer.justFinished_tick_of_paused (t : GameTimer) (dt : ℚ)
    (h : t.paused = true) : (t.tick dt).justFinished = false := by
  simp [GameTimer.tick, h, GameTimer.justFinished]

/-! ## Wave-state invariant lemmas -/

theorem spawn_wave_wave_count (s : WaveControl) (dt : ℚ) :
    (spawn_wave s dt).1.wave_count = s.wave_count := by
  unfold spawn_wave
  split
  · rfl
  · dsimp only
    split <;> rfl

theorem spawn_wave_textures (s : WaveControl) (dt : ℚ) :
    (spawn_wave s dt).1.textures = s.textures := by
  unfold spawn_wave
  split
  · rfl
  · dsimp only
    split <;> rfl

theorem wave_control_textures (s : WaveControl) (dt : ℚ) (ea : Bool) :
    (wave_control s dt ea).1.textures = s.textures := by
  unfold wave_control
  dsimp only
  repeat' split
  all_goals rfl

theorem waveInv_spawn (s : WaveControl) (dt : ℚ) (h : WaveInv s) :
    WaveInv (spawn_wave s dt).1 := by
  obtain ⟨h1, h2, h3, h4⟩ := h
  unfold spawn_wave
  split
  · exact ⟨h1, h2, h3, h4⟩
  · rename_i hne
    dsimp only
    split
    · rename_i hcond
      have h5 := hcond.1
      have hne4 : ¬ s.wave_count = 4 := by rw [h1] at hne; exact hne
      unfold WaveInv
      dsimp only
      simp only [MAX_ENEMIES_PER_WAVE] at h3 h5 ⊢
      exact ⟨h1, h2, by omega, fun _ => by omega⟩
    · exact ⟨h1, h2, h3, h4⟩

theorem waveInv_control (s : WaveControl) (dt : ℚ) (ea : Bool) (h : WaveInv s) :
    WaveInv (wave_control s dt ea).1 := by
  obtain ⟨h1, h2, h3, h4⟩ := h
  unfold wave_control
  dsimp only
  split
  · rename_i hcond
    have hlt : s.wave_count < 4 := h4 hcond.1
    repeat' split
    all_goals first
      | exact ⟨h1, h2, h3, h4⟩
      | (refine ⟨h1, ?_, ?_, ?_⟩ <;> simp [MAX_ENEMIES_PER_WAVE] <;> omega)
  · exact ⟨h1, h2, h3, h4⟩

theorem waveInv_reset (s : WaveControl) (h : WaveInv s) :
    WaveInv (reset_wave_control_on_game_over s) := by
  obtain ⟨h1, _, _, _⟩ := h
  exact ⟨h1, by simp [reset_wave_control_on_game_over],
    by simp [reset_wave_control_on_game_over, MAX_ENEMIES_PER_WAVE],
    by simp [reset_wave_control_on_game_over, MAX_ENEMIES_PER_WAVE]⟩

theorem waveInv_step (s : WaveControl) (op : WaveOp) (h : WaveInv s) :
    WaveInv (applyWaveOp s op) := by
  cases op with
  | spawn dt => exact waveInv_spawn s dt h
  | control dt ea => exact waveInv_control s dt ea h
  | resetGameOver => exact waveInv_reset s h

theorem waveInv_initial : WaveInv initial_wave_control := by
  refine ⟨rfl, by simp [initial_wave_control], ?_, ?_⟩ <;>
    simp [initial_wave_control, MAX_ENEMIES_PER_WAVE]

theorem reachable_waveInv (s : WaveControl) (h : ReachableWave s) : WaveInv s := by
  induction h with
  | init => exact waveInv_initial
  | step op _ ih => exact waveInv_step _ op ih

theorem reachable_foldl (ops : List WaveOp) :
    ∀ s : WaveControl, ReachableWave s → ReachableWave (ops.foldl applyWaveOp s) := by
  induction ops with
  | nil => intro s hs; exact hs
  | cons op rest ih =>
      intro s hs
      exact ih (applyWaveOp s op) (ReachableWave.step op hs)

theorem reachable_runWaveOps (ops : List WaveOp) : ReachableWave (runWaveOps ops) :=
  reachable_foldl ops initial_wave_control ReachableWave.init

/-- C5: for every sequence of activations of the wave systems starting from
the initial resource, `spawned_count_in_wave` never exceeds
`MAX_ENEMIES_PER_WAVE` (25): `spawn_wave` increments it only when it is
strictly below the quota, and the only other writes reset it to 0. -/
theorem spawn_quota_invariant (ops : List WaveOp) :
    (runWaveOps ops).spawned_count_in_wave ≤ MAX_ENEMIES_PER_WAVE :=
  (reachable_waveInv _ (reachable_runWaveOps ops)).2.2.1

/-! ## A concrete reachable trace through the first wave -/

theorem wcBootEx_reachable : ReachableWave wcBootEx := by
  have h : applyWaveOp initial_wave_control (WaveOp.control 15 false) = wcBootEx := by
    norm_num [applyWaveOp, wave_control, initial_wave_control, wcBootEx, GameTimer.tick,
      GameTimer.once, GameTimer.repeating, GameTimer.justFinished, GameTimer.pause,
      GameTimer.unpause, GameTimer.reset, MAX_ENEMIES_PER_WAVE, TIME_BETWEEN_WAVES,
      TIME_BETWEEN_SPAWNS]
  exact h ▸ ReachableWave.step _ ReachableWave.init

theorem wcSpawnEx_one : applyWaveOp wcBootEx (WaveOp.spawn (3 / 2)) = wcSpawnEx 1 := by
  norm_num [applyWaveOp, spawn_wave, wcBootEx, wcSpawnEx, GameTimer.tick,
    GameTimer.repeating, GameTimer.justFinished, MAX_ENEMIES_PER_WAVE]

theorem wcSpawnEx_step (k : Nat) (hk : k < 25) :
    applyWaveOp (wcSpawnEx k) (WaveOp.spawn (3 / 2)) = wcSpawnEx (k + 1) := by
  have hm : TimerMode.repeating ≠ TimerMode.once := by decide
  norm_num [applyWaveOp, spawn_wave, wcSpawnEx, GameTimer.tick, GameTimer.justFinished,
    MAX_ENEMIES_PER_WAVE, hk, hm]

theorem reachable_wcSpawnEx (k : Nat) (hk : k ≤ 24) : ReachableWave (wcSpawnEx (k + 1)) := by
  induction k with
  | zero => exact wcSpawnEx_one ▸ ReachableWave.step _ wcBootEx_reachable
  | succ n ih =>
      have hr := ih (by omega)
      exact wcSpawnEx_step (n + 1) (by omega) ▸ ReachableWave.step _ hr

theorem wcAfterWaveEx_reachable : ReachableWave wcAfterWaveEx := by
  have h25 : ReachableWave (wcSpawnEx 25) := reachable_wcSpawnEx 24 le_rfl
  have h1 : applyWaveOp (wcSpawnEx 25) (WaveOp.control 1 false) = wcUnpausedEx := by
    norm_num [applyWaveOp, wave_control, wcSpawnEx, wcUnpausedEx, GameTimer.tick,
      GameTimer.justFinished, GameTimer.pause, GameTimer.unpause, GameTimer.reset,
      MAX_ENEMIES_PER_WAVE]
  have h2 : applyWaveOp wcUnpausedEx (WaveOp.control 15 false) = wcAfterWaveEx := by
    norm_num [applyWaveOp, wave_control, wcUnpausedEx, wcAfterWaveEx, GameTimer.tick,
      GameTimer.justFinished, GameTimer.pause, GameTimer.unpause, GameTimer.reset,
      MAX_ENEMIES_PER_WAVE]
  exact h2 ▸ ReachableWave.step _ (h1 ▸ ReachableWave.step _ h25)

/-- C8 counterexample: the state `wcAfterWaveEx` (reached from the initial
resource by letting the bootstrap cooldown elapse, spawning the 25 enemies of
wave 0, and letting the inter-wave cooldown elapse) has `wave_count = 1`, and
the game-over handler `reset_wave_control_on_game_over` drops it back to 0 —
so the wave counter does decrease under one of the core's operations. -/
theorem wave_count_decrease_cex :
    ReachableWave wcAfterWaveEx ∧ wcAfterWaveEx.wave_count = 1 ∧
      (applyWaveOp wcAfterWaveEx WaveOp.resetGameOver).wave_count = 0 :=
  ⟨wcAfterWaveEx_reachable, rfl, rfl⟩

theorem wave_control_wave_count_ge (s : WaveControl) (dt : ℚ) (ea : Bool)
    (h : WaveInv s) : s.wave_count ≤ (wave_control s dt ea).1.wave_count := by
  obtain ⟨h1, h2, h3, h4⟩ := h
  unfold wave_control
  dsimp only
  split
  · rename_i hcond
    have hlt : s.wave_count < 4 := h4 hcond.1
    repeat' split
    all_goals dsimp only
    all_goals omega
  · exact le_rfl

/-- C8 (amended): on every reachable wave state, `spawn_wave` and
`wave_control` never decrease `wave_count` (reachable states keep
`wave_count ≤ 4`, so the `u8` increment never wraps);
`reset_wave_control_on_game_over`, however, resets the counter to 0 when the
game ends. -/
theorem wave_count_monotone_spec (s : WaveControl) (h : ReachableWave s)
    (dt : ℚ) (ea : Bool) :
    s.wave_count ≤ (applyWaveOp s (WaveOp.spawn dt)).wave_count ∧
    s.wave_count ≤ (applyWaveOp s (WaveOp.control dt ea)).wave_count := by
  constructor
  · have hs := spawn_wave_wave_count s dt
    simp only [applyWaveOp, hs, le_refl]
  · exact wave_control_wave_count_ge s dt ea (reachable_waveInv s h)

/-- Witness for the amended C8 theorem at the initial state. -/
theorem wave_count_monotone_spec_witness :
    initial_wave_control.wave_count ≤
        (applyWaveOp initial_wave_control (WaveOp.spawn 1)).wave_count ∧
    initial_wave_control.wave_count ≤
        (applyWaveOp initial_wave_control (WaveOp.control 1 false)).wave_count :=
  wave_count_monotone_spec initial_wave_control ReachableWave.init 1 false

/-! ## Frame property of `spawn_wave` after the final wave (C10) -/

theorem spawn_wave_at_last (s : WaveControl) (dt : ℚ)
    (h : s.wave_count = s.textures) : spawn_wave s dt = (s, none) := by
  unfold spawn_wave
  rw [if_pos h]

theorem wave_control_no_completion (s : WaveControl) (dt : ℚ) (ea : Bool)
    (h0 : s.spawned_count_in_wave ≠ MAX_ENEMIES_PER_WAVE) :
    (wave_control s dt ea).1.wave_count = s.wave_count ∧
    (wave_control s dt ea).1.spawned_count_in_wave = s.spawned_count_in_wave ∧
    (wave_control s dt ea).1.textures = s.textures := by
  unfold wave_control
  dsimp only
  rw [if_neg (fun hc => h0 hc.1)]
  exact ⟨rfl, rfl, rfl⟩

theorem countSpawns_zero_after_last (ops : List WaveOp) :
    ∀ s : WaveControl, (∀ op ∈ ops, op ≠ WaveOp.resetGameOver) →
      s.wave_count = s.textures → s.spawned_count_in_wave ≠ MAX_ENEMIES_PER_WAVE →
      countSpawns s ops = 0 := by
  induction ops with
  | nil => intro s _ _ _; rfl
  | cons op rest ih =>
      intro s hnr h4 h0
      have hrest : ∀ o ∈ rest, o ≠ WaveOp.resetGameOver :=
        fun o ho => hnr o (List.mem_cons_of_mem op ho)
      cases op with
      | spawn dt =>
          have hsp := spawn_wave_at_last s dt h4
          show (if (spawn_wave s dt).2.isSome then 1 else 0) + countSpawns (applyWaveOp s (WaveOp.spawn dt)) rest = 0
          have happ : applyWaveOp s (WaveOp.spawn dt) = s := by
            simp [applyWaveOp, hsp]
          rw [hsp, happ]
          simpa using ih s hrest h4 h0
      | control dt ea =>
          obtain ⟨hw, hsc, ht⟩ := wave_control_no_completion s dt ea h0
          show 0 + countSpawns (applyWaveOp s (WaveOp.control dt ea)) rest = 0
          have h4' : (applyWaveOp s (WaveOp.control dt ea)).wave_count
              = (applyWaveOp s (WaveOp.control dt ea)).textures := by
            show (wave_control s dt ea).1.wave_count = (wave_control s dt ea).1.textures
            rw [hw, ht, h4]
          have h0' : (applyWaveOp s (WaveOp.control dt ea)).spawned_count_in_wave
              ≠ MAX_ENEMIES_PER_WAVE := by
            show (wave_control s dt ea).1.spawned_count_in_wave ≠ MAX_ENEMIES_PER_WAVE
            rw [hsc]; exact h0
          simpa using ih _ hrest h4' h0'
      | resetGameOver =>
          exact absurd rfl (hnr (WaveOp.resetGameOver) (List.mem_cons_self _ _))

/-- C10: when `wave_count` equals the number of loaded enemy archetypes (4),
`spawn_wave` returns before ticking the spawn-cadence timer, leaving the
entire wave state unchanged and spawning nothing; and from such a state with
the spawn counter reset, no sequence of `spawn_wave` / `wave_control`
activations ever spawns an enemy again. -/
theorem spawn_wave_noop_after_last_wave (s : WaveControl) (dt : ℚ)
    (h4 : s.wave_count = s.textures) :
    spawn_wave s dt = (s, none) ∧
    (s.spawned_count_in_wave = 0 →
      ∀ ops : List WaveOp, (∀ op ∈ ops, op ≠ WaveOp.resetGameOver) →
        countSpawns s ops = 0) := by
  refine ⟨spawn_wave_at_last s dt h4, fun h0 ops hnr => ?_⟩
  exact countSpawns_zero_after_last ops s hnr h4
    (by rw [h0]; simp [MAX_ENEMIES_PER_WAVE])

/-- Witness for C10 at the concrete state with `wave_count = 4`. -/
theorem spawn_wave_noop_after_last_wave_witness :
    wcDoneEx.wave_count = wcDoneEx.textures ∧
    spawn_wave wcDoneEx 1 = (wcDoneEx, none) ∧
    countSpawns wcDoneEx [WaveOp.spawn 1, WaveOp.control 1 false] = 0 := by
  refine ⟨rfl, (spawn_wave_noop_after_last_wave wcDoneEx 1 rfl).1, ?_⟩
  exact (spawn_wave_noop_after_last_wave wcDoneEx 1 rfl).2 rfl
    [WaveOp.spawn 1, WaveOp.control 1 false] (by simp)

/-! ## Wave-completion double latch (C2) -/

/-- C2: in `wave_control`, when the quota is full (`spawned_count_in_wave =
MAX_ENEMIES_PER_WAVE`) and no enemy entity is alive: (1) if the inter-wave
cooldown is paused, it is unpaused and reset and the next state is set to
`Building`, with the counters untouched; (2) when the (ticked) cooldown then
finishes — in the normal flow, after the first wave the bootstrap flag is
set — the spawn counter is reset to 0, the wave counter is incremented by 1
(mod 256 for the `u8`; an exact increment below 255), the cooldown is paused
and reset again, and the next state is set to `Attacking`. -/
theorem wave_control_completion_spec (s : WaveControl) (dt : ℚ)
    (hq : s.spawned_count_in_wave = MAX_ENEMIES_PER_WAVE) :
    (s.time_between_waves.paused = true →
      (wave_control s dt false).1.time_between_waves.paused = false ∧
      (wave_control s dt false).1.time_between_waves.elapsed = 0 ∧
      (wave_control s dt false).2 = some GameState.Building ∧
      (wave_control s dt false).1.spawned_count_in_wave = s.spawned_count_in_wave ∧
      (wave_control s dt false).1.wave_count = s.wave_count) ∧
    (s.first_wave_spawned = true →
      (s.time_between_waves.tick dt).justFinished = true →
      (wave_control s dt false).1.spawned_count_in_wave = 0 ∧
      (wave_control s dt false).1.wave_count = (s.wave_count + 1) % 256 ∧
      (s.wave_count < 255 → (wave_control s dt false).1.wave_count = s.wave_count + 1) ∧
      (wave_control s dt false).1.time_between_waves.paused = true ∧
      (wave_control s dt false).1.time_between_waves.elapsed = 0 ∧
      (wave_control s dt false).2 = some GameState.Attacking) := by
  constructor
  · intro hp
    have ht1 : s.time_between_waves.tick dt
        = { s.time_between_waves with timesFinishedThisTick := 0 } := by
      unfold GameTimer.tick
      rw [if_pos hp]
    unfold wave_control
    dsimp only
    rw [ht1]
    simp only [GameTimer.justFinished, bne_self_eq_false, Bool.and_false, Bool.if_false_left,
      Bool.not_eq_eq_eq_not, Bool.not_true, if_neg (by simp : ¬False), hq]
    simp only [GameTimer.pause, GameTimer.unpause, GameTimer.reset, hp, if_pos, if_true,
      eq_self_iff_true, and_true, true_and]
    simp [GameTimer.justFinished]
  · intro hf hj
    have hp : s.time_between_waves.paused = false := by
      cases hpv : s.time_between_waves.paused
      · rfl
      · rw [GameTimer.justFinished_tick_of_paused _ dt hpv] at hj
        exact absurd hj (by simp)
    unfold wave_control
    dsimp only
    simp only [hf, Bool.not_true, Bool.false_and, if_neg (Bool.false_ne_true),
      GameTimer.tick_paused, hp, hq, if_pos, and_self, if_true, hj]
    simp [hj, hq, MAX_ENEMIES_PER_WAVE]
    exact ⟨by omega, by simp [GameTimer.pause, GameTimer.reset], by simp [GameTimer.pause, GameTimer.reset]⟩

/-- Witness for C2 at concrete full-quota states: one with the cooldown
paused, one with the cooldown one second from finishing. -/
theorem wave_control_completion_spec_witness :
    (wcPausedEx.spawned_count_in_wave = MAX_ENEMIES_PER_WAVE ∧
      wcPausedEx.time_between_waves.paused = true ∧
      (wave_control wcPausedEx 1 false).1.time_between_waves.paused = false ∧
      (wave_control wcPausedEx 1 false).2 = some GameState.Building) ∧
    (wcRunningEx.first_wave_spawned = true ∧
      (wcRunningEx.time_between_waves.tick 1).justFinished = true ∧
      (wave_control wcRunningEx 1 false).1.wave_count = wcRunningEx.wave_count + 1 ∧
      (wave_control wcRunningEx 1 false).1.spawned_count_in_wave = 0 ∧
      (wave_control wcRunningEx 1 false).2 = some GameState.Attacking) := by
  have hjEx : (wcRunningEx.time_between_waves.tick 1).justFinished = true := by
    norm_num [wcRunningEx, initial_wave_control, GameTimer.tick, GameTimer.once,
      GameTimer.justFinished]
  constructor
  · have h := (wave_control_completion_spec wcPausedEx 1 rfl).1 rfl
    exact ⟨rfl, rfl, h.1, h.2.2.1⟩
  · have h := (wave_control_completion_spec wcRunningEx 1 rfl).2 rfl hjEx
    exact ⟨rfl, hjEx, h.2.2.1 (by decide), h.1, h.2.2.2.2.2⟩

/-! ## Difficulty scaling (C3) -/

theorem enemy_life_eq (w : Nat) : enemy_life w = min (60 * 2 ^ w) 65535 := by
  unfold enemy_life INITIAL_ENEMY_LIFE SCALAR
  have h2 : ((6 / 5 : ℚ) + (4 / 5 : ℚ)) = 2 := by norm_num
  rw [h2, show ((60 : ℕ) : ℚ) * 2 ^ w = ((60 * 2 ^ w : ℕ) : ℚ) by push_cast; ring,
    round_natCast, Int.toNat_natCast]

theorem enemy_life_mono {a b : Nat} (h : a ≤ b) : enemy_life a ≤ enemy_life b := by
  rw [enemy_life_eq, enemy_life_eq]
  exact min_le_min
    (Nat.mul_le_mul_left _ (Nat.pow_le_pow_right (by norm_num) h)) le_rfl

theorem enemy_speed_mono {a b : Nat} (h : a ≤ b) : enemy_speed a ≤ enemy_speed b := by
  unfold enemy_speed
  refine min_le_min ?_ le_rfl
  exact mul_le_mul_of_nonneg_left
    (pow_le_pow_right₀ (by norm_num : (1 : ℚ) ≤ 21 / 20) h) (by norm_num)

theorem enemy_life_small (w : Nat) (hw : w < 11) :
    (enemy_life w : ℤ) = round ((60 : ℚ) * ((6 / 5 : ℚ) + (4 / 5 : ℚ)) ^ w) := by
  have h2 : ((6 / 5 : ℚ) + (4 / 5 : ℚ)) = 2 := by norm_num
  have hp : (2 : ℕ) ^ w ≤ 1024 := by
    calc (2 : ℕ) ^ w ≤ 2 ^ 10 := Nat.pow_le_pow_right (by norm_num) (by omega)
    _ = 1024 := by norm_num
  rw [h2, enemy_life_eq, min_eq_left (by omega),
    show ((60 : ℚ) * 2 ^ w) = ((60 * 2 ^ w : ℕ) : ℚ) by push_cast; ring, round_natCast]

/-- C3: an enemy spawned at wave `w` is created with
`life = round(60 * (1.2 + 0.8)^w)` (exactly, for every wave the `u16` cast
does not saturate, in particular all waves that can occur) and
`speed = min(75 * 1.05^w, 300)`; and both quantities are monotone
nondecreasing in the wave index. -/
theorem spawn_wave_scaling_spec :
    (∀ (s : WaveControl) (dt : ℚ) (en : SpawnedEnemy),
        (spawn_wave s dt).2 = some en →
          en.life = enemy_life s.wave_count ∧ en.speed = enemy_speed s.wave_count ∧
          (s.wave_count < 11 →
            (en.life : ℤ) = round ((60 : ℚ) * ((6 / 5 : ℚ) + (4 / 5 : ℚ)) ^ s.wave_count)) ∧
          en.speed = min ((75 : ℚ) * (21 / 20 : ℚ) ^ s.wave_count) 300) ∧
    (∀ w1 w2 : Nat, w1 < w2 → enemy_life w1 ≤ enemy_life w2 ∧ enemy_speed w1 ≤ enemy_speed w2) := by
  constructor
  · intro s dt en hsp
    unfold spawn_wave at hsp
    by_cases h1 : s.wave_count = s.textures
    · rw [if_pos h1] at hsp
      exact absurd hsp (by simp)
    · rw [if_neg h1] at hsp
      dsimp only at hsp
      by_cases h2 : s.spawned_count_in_wave < MAX_ENEMIES_PER_WAVE ∧
          (s.time_between_spawns.tick dt).justFinished = true
      · rw [if_pos h2] at hsp
        simp only [Option.some.injEq] at hsp
        subst hsp
        exact ⟨rfl, rfl, fun hw => enemy_life_small s.wave_count hw, by rfl⟩
      · rw [if_neg h2] at hsp
        exact absurd hsp (by simp)
  · intro w1 w2 h
    exact ⟨enemy_life_mono (Nat.le_of_lt h), enemy_speed_mono (Nat.le_of_lt h)⟩

/-- Witness for C3: the first spawn of wave 0 carries life 60 and speed 75,
and both quantities grow from wave 0 to wave 1. -/
theorem spawn_wave_scaling_spec_witness :
    (spawn_wave wcBootEx (3 / 2)).2
        = some ⟨⟨SPAWN_X_LOCATION, SPAWN_Y_LOCATION, 1⟩, enemy_life 0, enemy_speed 0, 0⟩ ∧
    enemy_life 0 = 60 ∧ enemy_speed 0 = 75 ∧
    (0 : Nat) < 1 ∧ enemy_life 0 ≤ enemy_life 1 ∧ enemy_speed 0 ≤ enemy_speed 1 := by
  have hsp : (spawn_wave wcBootEx (3 / 2)).2
      = some ⟨⟨SPAWN_X_LOCATION, SPAWN_Y_LOCATION, 1⟩, enemy_life 0, enemy_speed 0, 0⟩ := by
    norm_num [spawn_wave, wcBootEx, GameTimer.tick, GameTimer.repeating,
      GameTimer.justFinished, MAX_ENEMIES_PER_WAVE, SPAWN_X_LOCATION, SPAWN_Y_LOCATION]
  have hmain := spawn_wave_scaling_spec.1 wcBootEx (3 / 2) _ hsp
  have hmono := spawn_wave_scaling_spec.2 0 1 (by decide)
  refine ⟨hsp, ?_, ?_, by decide, hmono.1, hmono.2⟩
  · rw [enemy_life_eq]
    norm_num
  · unfold enemy_speed
    norm_num

/-! ## Projectile lemmas (C4, C6, C9) -/

theorem move_shots_removed (env : ShotEnv) (w : Nat) (s : ShotSt) (h : s.removed = true) :
    move_shots_to_enemies env w s = (s, noShotEvents) := by
  unfold move_shots_to_enemies
  rw [if_pos h]

theorem despawn_shots_removed (env : ShotEnv) (s : ShotSt) (h : s.removed = true) :
    despawn_shots_with_killed_target env s = s := by
  unfold despawn_shots_with_killed_target
  rw [if_pos h]

theorem shot_tick_removed (env : ShotEnv) (w : Nat) (s : ShotSt) (h : s.removed = true) :
    shot_tick env w s = (s, noShotEvents) := by
  unfold shot_tick
  rw [move_shots_removed env w s h]
  dsimp only
  rw [despawn_shots_removed env s h]

theorem move_shots_events_spec (env : ShotEnv) (w : Nat) (s : ShotSt) :
    ((move_shots_to_enemies env w s).2.damaged = true →
      (move_shots_to_enemies env w s).1.removed = true) ∧
    ((move_shots_to_enemies env w s).2.enemyKilled = true →
      env.enemyLife - s.damage = 0 ∧
      (move_shots_to_enemies env w s).2.goldGained
        = gold_reward (env.enemyLife - s.damage) w) := by
  by_cases hrem : s.removed = true
  · rw [move_shots_removed env w s hrem]
    simp [noShotEvents]
  · cases htg : s.target with
    | none =>
        unfold move_shots_to_enemies
        simp only [if_neg hrem, htg]
        simp [noShotEvents]
    | some tp =>
        obtain ⟨ent, p⟩ := tp
        cases hep : env.enemyPos with
        | none =>
            unfold move_shots_to_enemies
            simp only [if_neg hrem, htg, hep]
            simp [noShotEvents]
        | some epos =>
            unfold move_shots_to_enemies
            simp only [if_neg hrem, htg, hep]
            split_ifs <;> simp_all [noShotEvents]

theorem move_damaged_removed (env : ShotEnv) (w : Nat) (s : ShotSt)
    (h : (move_shots_to_enemies env w s).2.damaged = true) :
    (move_shots_to_enemies env w s).1.removed = true :=
  (move_shots_events_spec env w s).1 h

theorem shot_tick_damaged_removed (env : ShotEnv) (w : Nat) (s : ShotSt)
    (h : (shot_tick env w s).2.damaged = true) :
    (shot_tick env w s).1.removed = true := by
  unfold shot_tick at h ⊢
  dsimp only at h ⊢
  have h1 := move_damaged_removed env w s h
  rw [despawn_shots_removed env _ h1]
  exact h1

theorem run_shot_ticks_removed (w : Nat) (envs : List ShotEnv) (s : ShotSt)
    (h : s.removed = true) : run_shot_ticks w envs s = (s, 0) := by
  induction envs with
  | nil => rfl
  | cons e rest ih =>
      unfold run_shot_ticks
      rw [shot_tick_removed e w s h]
      dsimp only
      rw [ih]
      simp [noShotEvents]

theorem run_shot_ticks_le_one (w : Nat) (envs : List ShotEnv) :
    ∀ s : ShotSt, (run_shot_ticks w envs s).2 ≤ 1 := by
  induction envs with
  | nil => intro s; simp [run_shot_ticks]
  | cons e rest ih =>
      intro s
      unfold run_shot_ticks
      dsimp only
      by_cases hd : (shot_tick e w s).2.damaged = true
      · rw [if_pos hd,
          run_shot_ticks_removed w rest _ (shot_tick_damaged_removed e w s hd)]
        simp
      · rw [if_neg hd]
        simpa using ih (shot_tick e w s).1

/-- C6: a projectile applies damage at most once before being removed, over
every sequence of ticks of the two projectile systems (including those where
its target dies from another source mid-flight); and on any tick where damage
is applied the projectile ends the tick removed, whether or not the enemy
died. -/
theorem shot_damage_at_most_once (envs : List ShotEnv) (w : Nat) (s : ShotSt)
    (env : ShotEnv) :
    (run_shot_ticks w envs s).2 ≤ 1 ∧
    ((shot_tick env w s).2.damaged = true → (shot_tick env w s).1.removed = true) :=
  ⟨run_shot_ticks_le_one w envs s, shot_tick_damaged_removed env w s⟩

/-- Witness for C6: a concrete impact tick applies damage and removes the
projectile, and a run over that tick counts one damage application. -/
theorem shot_damage_at_most_once_witness :
    (shot_tick shotEnvEx 3 shotEx).2.damaged = true ∧
    (shot_tick shotEnvEx 3 shotEx).1.removed = true ∧
    (run_shot_ticks 3 [shotEnvEx] shotEx).2 ≤ 1 := by
  have hd : (shot_tick shotEnvEx 3 shotEx).2.damaged = true := by
    norm_num [shot_tick, move_shots_to_enemies, despawn_shots_with_killed_target,
      shotEnvEx, shotEx, GameTimer.tick, GameTimer.justFinished, GameTimer.repeating,
      V3.add, V3.sub, V3.scale, dist3, SHOT_SPEED, SHOT_HURT_DISTANCE, noShotEvents]
  exact ⟨hd, (shot_damage_at_most_once [] 3 shotEx shotEnvEx).2 hd,
    (shot_damage_at_most_once [shotEnvEx] 3 shotEx shotEnvEx).1⟩

/-! ## Gold reward on kill (C4) -/

theorem gold_reward_zero (w : Nat) (hw : w < 256) : gold_reward 0 w = 2 * (w + 1) := by
  unfold gold_reward
  have h1 : ((0 : ℕ) : ℚ) / (5 / 2) + ((w : ℚ) + 1) * 2 = ((2 * (w + 1) : ℕ) : ℚ) := by
    push_cast
    ring
  rw [h1, round_natCast, Int.toNat_natCast, min_eq_left (by omega)]

/-- C4: whenever a projectile impact kills its enemy (the saturating damage
subtraction leaves life 0), the gold gained is exactly
`round(remaining_life_after_damage / 2.5 + (wave_count + 1) * 2)`; since the
remaining life is 0 at that point, the reward equals `2 * (wave_count + 1)`
(for every `u8` wave counter value). -/
theorem kill_reward_spec (env : ShotEnv) (w : Nat) (s : ShotSt) (hw : w < 256)
    (hk : (move_shots_to_enemies env w s).2.enemyKilled = true) :
    env.enemyLife - s.damage = 0 ∧
    (move_shots_to_enemies env w s).2.goldGained
      = gold_reward (env.enemyLife - s.damage) w ∧
    (move_shots_to_enemies env w s).2.goldGained = 2 * (w + 1) := by
  obtain ⟨h0, hg⟩ := (move_shots_events_spec env w s).2 hk
  refine ⟨h0, hg, ?_⟩
  rw [hg, h0, gold_reward_zero w hw]

/-- Witness for C4: a concrete killing impact at wave 3 yields 8 gold. -/
theorem kill_reward_spec_witness :
    (3 : Nat) < 256 ∧
    (move_shots_to_enemies shotEnvEx 3 shotEx).2.enemyKilled = true ∧
    (move_shots_to_enemies shotEnvEx 3 shotEx).2.goldGained = 2 * (3 + 1) := by
  have hk : (move_shots_to_enemies shotEnvEx 3 shotEx).2.enemyKilled = true := by
    norm_num [move_shots_to_enemies, shotEnvEx, shotEx, GameTimer.tick,
      GameTimer.justFinished, GameTimer.repeating, V3.add, V3.sub, V3.scale, dist3,
      SHOT_SPEED, SHOT_HURT_DISTANCE, noShotEvents]
  exact ⟨by decide, hk, (kill_reward_spec shotEnvEx 3 shotEx (by decide) hk).2.2⟩

/-! ## Lost-target projectiles (C9) -/

theorem move_shots_lost_target (env : ShotEnv) (w : Nat) (s : ShotSt)
    (hrem : s.removed = false) (hdead : env.enemyPos = none) :
    move_shots_to_enemies env w s = (s, noShotEvents) := by
  unfold move_shots_to_enemies
  rw [if_neg (by simp [hrem])]
  cases htg : s.target with
  | none => rfl
  | some tp =>
      obtain ⟨ent, p⟩ := tp
      simp only [hdead]

/-- C9: for a projectile whose target entity no longer resolves, the tick is
total (no error) and applies no damage; the visual frame is reset to the
first frame, the projectile moves toward the last known target position
(snapping onto it on arrival), and it is removed exactly when the new
position is within squared distance 50 of the last known position or the
updated translation leaves the radius-`DESPAWN_SHOT_RANGE` circle around the
origin `(0, 0)`. -/
theorem despawn_lost_target_spec (env : ShotEnv) (w : Nat) (s : ShotSt)
    (ent : Nat) (lastPos : V3)
    (hrem : s.removed = false) (ht : s.target = some (ent, lastPos))
    (hdead : env.enemyPos = none) :
    (shot_tick env w s).2 = noShotEvents ∧
    (shot_tick env w s).1.atlasIndex = 0 ∧
    (shot_tick env w s).1.pos =
      (if dist3 (s.pos.add ((env.dirTo (lastPos.sub s.pos)).scale (SHOT_SPEED * env.dt))) lastPos ≤ 50
       then lastPos
       else s.pos.add ((env.dirTo (lastPos.sub s.pos)).scale (SHOT_SPEED * env.dt))) ∧
    ((shot_tick env w s).1.removed = true ↔
      (dist3 (s.pos.add ((env.dirTo (lastPos.sub s.pos)).scale (SHOT_SPEED * env.dt))) lastPos ≤ 50 ∨
       DESPAWN_SHOT_RANGE * DESPAWN_SHOT_RANGE <
         dist2 (V3.truncate (s.pos.add ((env.dirTo (lastPos.sub s.pos)).scale (SHOT_SPEED * env.dt)))) ⟨0, 0⟩)) := by
  have hmv := move_shots_lost_target env w s hrem hdead
  unfold shot_tick
  rw [hmv]
  dsimp only
  unfold despawn_shots_with_killed_target
  rw [if_neg (by simp [hrem]), ht]
  simp only [hdead, Option.isSome_none, Bool.false_eq_true, if_false]
  refine ⟨trivial, trivial, trivial, ?_⟩
  by_cases h1 : dist3 (s.pos.add (V3.scale (SHOT_SPEED * env.dt) (env.dirTo (lastPos.sub s.pos)))) lastPos ≤ 50
  · simp [h1]
  · simp [h1]

/-- Witness for C9: a projectile whose last known target position is
`(900, 0, 0)` flies 1400 units, misses the arrival threshold, leaves the
800-radius circle, and is removed without applying damage. -/
theorem despawn_lost_target_spec_witness :
    shotLostEx.removed = false ∧ shotLostEx.target = some (0, ⟨900, 0, 0⟩) ∧
    lostEnvEx.enemyPos = none ∧
    (shot_tick lostEnvEx 0 shotLostEx).2 = noShotEvents ∧
    (shot_tick lostEnvEx 0 shotLostEx).1.atlasIndex = 0 ∧
    (shot_tick lostEnvEx 0 shotLostEx).1.removed = true := by
  have h := despawn_lost_target_spec lostEnvEx 0 shotLostEx 0 ⟨900, 0, 0⟩ rfl rfl rfl
  refine ⟨rfl, rfl, rfl, h.1, h.2.1, ?_⟩
  refine (h.2.2.2).mpr (Or.inr ?_)
  norm_num [lostEnvEx, shotLostEx, V3.add, V3.sub, V3.scale, V3.truncate, dist2,
    SHOT_SPEED, DESPAWN_SHOT_RANGE]

/-! ## Breach and game over (C7) -/

theorem foldl_sub_one {α : Type} (l : List α) (n : Nat) :
    l.foldl (fun m _ => m - 1) n = n - l.length := by
  induction l generalizing n with
  | nil => rfl
  | cons a t ih =>
      show t.foldl (fun m _ => m - 1) (n - 1) = n - (a :: t).length
      rw [ih]
      simp only [List.length_cons]
      omega

/-- C7: every enemy whose y coordinate has passed `BREAK_POINTS[5].y = -375`
is removed by `game_over`, and the remaining lives drop by exactly one per
breaching enemy, saturating at 0 (`Nat` truncated subtraction embeds the
`u8::saturating_sub`, which never underflows or panics); the next state is
set to `GameOver` exactly when the resulting lives are 0; and in the
`GameOver` phase the (spec-modelled) phase gating keeps the spawning and
targeting systems from doing anything. -/
theorem game_over_breach_spec (enemies : List EnemyRef) (lifes : Nat) :
    FINAL_BREAK_Y = -375 ∧
    (∀ e ∈ enemies, e.pos.y ≤ FINAL_BREAK_Y → e ∉ (game_over enemies lifes).1) ∧
    (game_over enemies lifes).2.1
        = lifes - (enemies.filter fun e => decide (e.pos.y ≤ FINAL_BREAK_Y)).length ∧
    ((game_over enemies lifes).2.2 = some GameState.GameOver ↔
      (game_over enemies lifes).2.1 = 0) ∧
    (∀ (s : WaveControl) (dt : ℚ), gated_spawn_wave GameState.GameOver s dt = (s, none)) ∧
    (∀ (p : V3) (es : List EnemyRef),
      gated_spawn_shots_target GameState.GameOver p es = none) := by
  refine ⟨rfl, ?_, ?_, ?_, ?_, ?_⟩
  · intro e he hy hmem
    have := (List.mem_filter.mp hmem).2
    simp only [Bool.not_eq_true', decide_eq_false_iff_not] at this
    exact this hy
  · show (List.filter _ enemies).foldl (fun m _ => m - 1) lifes = _
    rw [foldl_sub_one]
  · show (if (game_over enemies lifes).2.1 = 0 then some GameState.GameOver else none)
        = some GameState.GameOver ↔ (game_over enemies lifes).2.1 = 0
    by_cases h0 : (game_over enemies lifes).2.1 = 0
    · simp [h0]
    · simp [h0]
  · intro s dt
    unfold gated_spawn_wave
    rw [if_neg (by simp)]
  · intro p es
    unfold gated_spawn_shots_target
    rw [if_neg (by simp)]

/-- Witness for C7: a single enemy past the terminal threshold with one life
remaining is despawned, lives drop to 0, and the phase becomes `GameOver`. -/
theorem game_over_breach_spec_witness :
    breachEx ∈ [breachEx] ∧ breachEx.pos.y ≤ FINAL_BREAK_Y ∧
    breachEx ∉ (game_over [breachEx] 1).1 ∧
    (game_over [breachEx] 1).2.1 = 0 ∧
    (game_over [breachEx] 1).2.2 = some GameState.GameOver ∧
    gated_spawn_wave GameState.GameOver initial_wave_control 1
        = (initial_wave_control, none) := by
  have h := game_over_breach_spec [breachEx] 1
  have hy : breachEx.pos.y ≤ FINAL_BREAK_Y := by
    norm_num [breachEx, FINAL_BREAK_Y, BREAK_POINTS]
  have hlen : (game_over [breachEx] 1).2.1 = 0 := by
    rw [h.2.2.1]
    norm_num [breachEx, FINAL_BREAK_Y, BREAK_POINTS]
  refine ⟨List.mem_singleton_self _, hy, ?_, hlen, ?_, h.2.2.2.2.1 initial_wave_control 1⟩
  · exact h.2.1 breachEx (List.mem_singleton_self _) hy
  · exact (h.2.2.2.1).mpr hlen

/-! ## Targeting lemmas (C1) -/

theorem foldl_max_le_acc (es : List EnemyRef) :
    ∀ acc : Nat, acc ≤ es.foldl (fun m e => max m e.lvl) acc := by
  induction es with
  | nil => intro acc; exact le_rfl
  | cons a t ih =>
      intro acc
      exact le_trans (le_max_left acc a.lvl) (ih (max acc a.lvl))

theorem le_foldl_max (es : List EnemyRef) :
    ∀ (e : EnemyRef), e ∈ es →
      ∀ acc : Nat, e.lvl ≤ es.foldl (fun m e => max m e.lvl) acc := by
  induction es with
  | nil => intro e he; exact absurd he (List.not_mem_nil e)
  | cons a t ih =>
      intro e he acc
      rcases List.mem_cons.mp he with rfl | hmem
      · exact le_trans (le_max_right acc e.lvl) (foldl_max_le_acc t (max acc e.lvl))
      · exact ih e hmem (max acc a.lvl)

theorem foldl_max_attained (es : List EnemyRef) :
    ∀ acc : Nat, (∃ e ∈ es, es.foldl (fun m e => max m e.lvl) acc = e.lvl) ∨
      es.foldl (fun m e => max m e.lvl) acc = acc := by
  induction es with
  | nil => intro acc; exact Or.inr rfl
  | cons a t ih =>
      intro acc
      simp only [List.foldl_cons]
      rcases ih (max acc a.lvl) with ⟨e, hmem, heq⟩ | heq
      · exact Or.inl ⟨e, List.mem_cons_of_mem a hmem, heq⟩
      · rcases max_choice acc a.lvl with hm | hm
        · exact Or.inr (by rw [heq, hm])
        · exact Or.inl ⟨a, List.mem_cons_self a t, by rw [heq, hm]⟩

theorem max_break_value_attained (es : List EnemyRef) (h : es ≠ []) :
    ∃ e ∈ es, max_break_value es = e.lvl := by
  rcases foldl_max_attained es 0 with ⟨e, hmem, heq⟩ | heq
  · exact ⟨e, hmem, heq⟩
  · obtain ⟨a, t, rfl⟩ := List.exists_cons_of_ne_nil h
    refine ⟨a, List.mem_cons_self a t, ?_⟩
    have h1 : a.lvl ≤ max_break_value (a :: t) := le_foldl_max _ a (List.mem_cons_self a t) 0
    have h2 : max_break_value (a :: t) = 0 := heq
    omega

theorem closer_ne_nil (tower : V3) (es : List EnemyRef)
    (h : enemies_in_range tower es ≠ []) :
    closer_enemies_to_victory tower es ≠ [] := by
  obtain ⟨e, hmem, heq⟩ := max_break_value_attained (enemies_in_range tower es) h
  have : e ∈ closer_enemies_to_victory tower es := by
    unfold closer_enemies_to_victory
    refine List.mem_filter.mpr ⟨hmem, ?_⟩
    simp [heq]
  exact List.ne_nil_of_mem this

theorem select_loop_some_spec (l : List EnemyRef) :
    ∀ b : EnemyRef,
      ∃ c, select_loop (some (b, dist_to_break b)) l = some (c, dist_to_break c) ∧
        ((c = b ∧ ∀ a ∈ l, dist_to_break b ≤ dist_to_break a) ∨
         (dist_to_break c < dist_to_break b ∧
          (∀ a ∈ l, dist_to_break c ≤ dist_to_break a) ∧
          ∃ i, ∃ hi : i < l.length, l.get ⟨i, hi⟩ = c ∧
            ∀ j, ∀ hj : j < i,
              dist_to_break c < dist_to_break (l.get ⟨j, Nat.lt_trans hj hi⟩))) := by
  induction l with
  | nil =>
      intro b
      exact ⟨b, rfl, Or.inl ⟨rfl, by simp⟩⟩
  | cons a t ih =>
      intro b
      by_cases hlt : dist_to_break a < dist_to_break b
      · have hstep : select_loop (some (b, dist_to_break b)) (a :: t)
            = select_loop (some (a, dist_to_break a)) t := by
          show (if dist_to_break a < dist_to_break b then
              select_loop (some (a, dist_to_break a)) t
            else select_loop (some (b, dist_to_break b)) t) = _
          rw [if_pos hlt]
        obtain ⟨c, hc, hrel⟩ := ih a
        refine ⟨c, by rw [hstep]; exact hc, Or.inr ?_⟩
        rcases hrel with ⟨hca, hmin⟩ | ⟨hlt2, hmin, i, hi, hget, hearly⟩
        · subst hca
          refine ⟨hlt, ?_, 0, Nat.succ_pos _, rfl, ?_⟩
          · intro x hx
            rcases List.mem_cons.mp hx with rfl | hxt
            · exact le_rfl
            · exact hmin x hxt
          · intro j hj
            exact absurd hj (Nat.not_lt_zero j)
        · refine ⟨lt_trans hlt2 hlt, ?_, i + 1, Nat.succ_lt_succ hi, hget, ?_⟩
          · intro x hx
            rcases List.mem_cons.mp hx with rfl | hxt
            · exact le_of_lt hlt2
            · exact hmin x hxt
          · intro j hj
            match j, hj with
            | 0, _ => exact hlt2
            | j' + 1, hj' => exact hearly j' (Nat.lt_of_succ_lt_succ hj')
      · have hstep : select_loop (some (b, dist_to_break b)) (a :: t)
            = select_loop (some (b, dist_to_break b)) t := by
          show (if dist_to_break a < dist_to_break b then
              select_loop (some (a, dist_to_break a)) t
            else select_loop (some (b, dist_to_break b)) t) = _
          rw [if_neg hlt]
        obtain ⟨c, hc, hrel⟩ := ih b
        refine ⟨c, by rw [hstep]; exact hc, ?_⟩
        rcases hrel with ⟨hca, hmin⟩ | ⟨hlt2, hmin, i, hi, hget, hearly⟩
        · refine Or.inl ⟨hca, ?_⟩
          intro x hx
          rcases List.mem_cons.mp hx with rfl | hxt
          · exact le_of_not_lt hlt
          · exact hmin x hxt
        · refine Or.inr ⟨hlt2, ?_, i + 1, Nat.succ_lt_succ hi, hget, ?_⟩
          · intro x hx
            rcases List.mem_cons.mp hx with rfl | hxt
            · exact le_of_lt (lt_of_lt_of_le hlt2 (le_of_not_lt hlt))
            · exact hmin x hxt
          · intro j hj
            match j, hj with
            | 0, _ => exact lt_of_lt_of_le hlt2 (le_of_not_lt hlt)
            | j' + 1, hj' => exact hearly j' (Nat.lt_of_succ_lt_succ hj')

theorem select_loop_none_spec (l : List EnemyRef) (h : l ≠ []) :
    ∃ c, select_loop none l = some (c, dist_to_break c) ∧
      (∀ a ∈ l, dist_to_break c ≤ dist_to_break a) ∧
      ∃ i, ∃ hi : i < l.length, l.get ⟨i, hi⟩ = c ∧
        ∀ j, ∀ hj : j < i,
          dist_to_break c < dist_to_break (l.get ⟨j, Nat.lt_trans hj hi⟩) := by
  obtain ⟨a, t, rfl⟩ := List.exists_cons_of_ne_nil h
  have hstep : select_loop none (a :: t) = select_loop (some (a, dist_to_break a)) t := rfl
  obtain ⟨c, hc, hrel⟩ := select_loop_some_spec t a
  rcases hrel with ⟨hca, hmin⟩ | ⟨hlt2, hmin, i, hi, hget, hearly⟩
  · subst hca
    refine ⟨c, by rw [hstep]; exact hc, ?_, 0, Nat.succ_pos _, rfl, ?_⟩
    · intro x hx
      rcases List.mem_cons.mp hx with rfl | hxt
      · exact le_rfl
      · exact hmin x hxt
    · intro j hj
      exact absurd hj (Nat.not_lt_zero j)
  · refine ⟨c, by rw [hstep]; exact hc, ?_, i + 1, Nat.succ_lt_succ hi, hget, ?_⟩
    · intro x hx
      rcases List.mem_cons.mp hx with rfl | hxt
      · exact le_of_lt hlt2
      · exact hmin x hxt
    · intro j hj
      match j, hj with
      | 0, _ => exact hlt2
      | j' + 1, hj' => exact hearly j' (Nat.lt_of_succ_lt_succ hj')

/-- C1: whenever some enemy is in a tower's attack annulus
`0 < dist < TOWER_ATTACK_RANGE`, the target chosen by the selection logic of
`spawn_shots` is an in-range enemy whose `BreakPointLvl` is the maximum over
all in-range enemies, whose distance to `BREAK_POINTS[lvl]` is minimal among
the maximum-level enemies, and which is the first such enemy in query order —
every earlier candidate has strictly larger distance, so ties are resolved
deterministically in favor of the earliest candidate. -/
theorem spawn_shots_target_spec (tower : V3) (es : List EnemyRef)
    (hne : enemies_in_range tower es ≠ []) :
    ∃ e, spawn_shots_target tower es = some e ∧
      e ∈ enemies_in_range tower es ∧
      e.lvl = max_break_value (enemies_in_range tower es) ∧
      (∀ e2 ∈ closer_enemies_to_victory tower es, dist_to_break e ≤ dist_to_break e2) ∧
      ∃ i, ∃ hi : i < (closer_enemies_to_victory tower es).length,
        (closer_enemies_to_victory tower es).get ⟨i, hi⟩ = e ∧
        ∀ j, ∀ hj : j < i,
          dist_to_break e <
            dist_to_break ((closer_enemies_to_victory tower es).get ⟨j, Nat.lt_trans hj hi⟩) := by
  have hcl := closer_ne_nil tower es hne
  obtain ⟨c, hc, hmin, i, hi, hget, hearly⟩ := select_loop_none_spec _ hcl
  have hmemc : c ∈ closer_enemies_to_victory tower es := hget ▸ List.get_mem _ i hi
  have hfil := List.mem_filter.mp
    (show c ∈ List.filter _ (enemies_in_range tower es) from hmemc)
  refine ⟨c, ?_, hfil.1, ?_, hmin, i, hi, hget, hearly⟩
  · unfold spawn_shots_target
    rw [hc]
    rfl
  · have := hfil.2
    simpa using this

/-- Witness for C1: with the tower at `(-150, -150, 0)` and three in-range
enemies (two at level 2, one at level 1), the selected target is the level-2
enemy nearest its waypoint. -/
theorem spawn_shots_target_spec_witness :
    enemies_in_range towerEx enemiesEx ≠ [] ∧
    spawn_shots_target towerEx enemiesEx = some enemyEx1 ∧
    enemyEx1 ∈ enemies_in_range towerEx enemiesEx ∧
    enemyEx1.lvl = max_break_value (enemies_in_range towerEx enemiesEx) := by
  have hval : spawn_shots_target towerEx enemiesEx = some enemyEx1 := by
    norm_num [spawn_shots_target, closer_enemies_to_victory, enemies_in_range,
      max_break_value, select_loop, dist_to_break, BREAK_POINTS, enemiesEx, towerEx,
      enemyEx1, enemyEx2, enemyEx3, dist3, dist2, V3.truncate, TOWER_ATTACK_RANGE,
      SPAWN_Y_LOCATION, List.filter, List.foldl]
  have hne : enemies_in_range towerEx enemiesEx ≠ [] := by
    norm_num [enemies_in_range, enemiesEx, towerEx, enemyEx1, enemyEx2, enemyEx3,
      dist3, TOWER_ATTACK_RANGE, List.filter]
    exact List.cons_ne_nil _ _
  obtain ⟨e, hsel, hmem, hlvl, _⟩ := spawn_shots_target_spec towerEx enemiesEx hne
  have he : e = enemyEx1 := by
    rw [hval] at hsel
    exact (Option.some.injEq _ _).mp hsel.symm
  subst he
  exact ⟨hne, hval, hmem, hlvl⟩
